import Mathlib

/-!
# RuleHawk command-trust subsystem: a shallow embedding

This file embeds the core of the `rulehawk` command-trust subsystem
(`rulehawk/memory.py`, `rulehawk/verifier.py` and the learning-protocol
tools of `rulehawk/mcp/interactive_server.py`) as executable Lean
definitions, and proves the specified properties about them.

Modelling conventions:
* Python `float` confidence values are modelled by `ℚ` (the arithmetic the
  spec and the code perform on them — division of small counters, `min`,
  `max`, comparison against 0.5 / 0.7 / 0.98 — is exact at every point the
  properties below touch).
* Wall-clock timestamps (`datetime.now().isoformat()`) are world inputs and
  are threaded through as an explicit `now : String` argument.
* The subprocess run performed by the sandboxed executor is a world input,
  modelled by the inductive `SandboxRun` (completed with captured output /
  timed out / raised), and the filesystem snapshots taken around it are
  explicit `Finset String` arguments.
* Python `re.search(pattern, s, re.IGNORECASE)` is modelled by a
  Brzozowski-derivative regex engine over `List Char`; case-insensitivity
  is modelled by lowercasing the subject string, all patterns being
  lowercase (the patterns and subjects involved are ASCII).
* Reason strings produced by the code are modelled by the inductive
  `Reason`, one constructor per distinct message (f-string arguments kept
  as constructor arguments).
-/

namespace RuleHawk

/-! ## Regular expressions (the fragment of Python `re` used by verifier.py) -/

/-- Regex abstract syntax: the fragment used by `CommandVerifier`'s
patterns (literals, `.`, character classes `\s` and `\d`, concatenation,
alternation, `*`, `+`). -/
inductive RE where
  | eps : RE
  | never : RE
  | ch : Char → RE
  | anyc : RE
  | cls : (Char → Bool) → RE
  | seq : RE → RE → RE
  | alt : RE → RE → RE
  | star : RE → RE

/-- Does the regex accept the empty string? -/
def RE.nullable : RE → Bool
  | .eps => true
  | .never => false
  | .ch _ => false
  | .anyc => false
  | .cls _ => false
  | .seq a b => a.nullable && b.nullable
  | .alt a b => a.nullable || b.nullable
  | .star _ => true

/-- Brzozowski derivative of a regex by a character. -/
def RE.deriv (c : Char) : RE → RE
  | .eps => .never
  | .never => .never
  | .ch a => if a = c then .eps else .never
  | .anyc => if c = '\n' then .never else .eps
  | .cls p => if p c then .eps else .never
  | .seq a b =>
      if a.nullable then .alt (.seq (a.deriv c) b) (b.deriv c)
      else .seq (a.deriv c) b
  | .alt a b => .alt (a.deriv c) (b.deriv c)
  | .star a => .seq (a.deriv c) (.star a)

/-- Whole-string acceptance via iterated derivatives. -/
def RE.accepts (r : RE) (s : List Char) : Bool :=
  (s.foldl (fun r c => r.deriv c) r).nullable

/-- `re.search` semantics: some substring of `s` matches `r`. -/
def reSearch (r : RE) (s : List Char) : Bool :=
  s.tails.any (fun t => t.inits.any (fun p => r.accepts p))

/-- Concatenation of a list of regexes. -/
def seqL (l : List RE) : RE := l.foldr .seq .eps

/-- Literal string regex. -/
def lit (s : String) : RE := seqL (s.data.map .ch)

/-- The whitespace characters matched by Python's `\s` (ASCII). -/
def isPySpace (c : Char) : Bool :=
  c = ' ' || c = '\t' || c = '\n' || c = '\r' || c = '\x0b' || c = '\x0c'

/-- Python `\s`. -/
def wsp : RE := .cls isPySpace

/-- Python `\d` (ASCII digits). -/
def dig : RE := .cls Char.isDigit

/-- `r+` as `r · r*`. -/
def RE.plus1 (r : RE) : RE := .seq r (.star r)

/-- `.*` — any run of non-newline characters. -/
def dotStar : RE := .star .anyc

/-! ## verifier.py: `CommandVerifier.DANGEROUS_PATTERNS`

Each entry transcribes one Python pattern (lowercased: the code searches
with `re.IGNORECASE`, modelled by lowercasing the subject).  The fork-bomb
pattern `:(){ :|:& };:` is transcribed the way Python's `re` parses it: the
`|` is a top-level alternation, `()` is an empty group and the braces are
literal characters (they do not form a valid counted repetition), so it
denotes `:(){ :` or `:& };:`. -/

/-- `rm\s+-rf\s+/` — recursive force remove from root. -/
def patRmRfRoot : RE := seqL [lit "rm", wsp.plus1, lit "-rf", wsp.plus1, lit "/"]

/-- `rm\s+-rf\s+~` — recursive force remove home. -/
def patRmRfHome : RE := seqL [lit "rm", wsp.plus1, lit "-rf", wsp.plus1, lit "~"]

/-- `>\s*/dev/sd` — overwriting disk devices. -/
def patDevSd : RE := seqL [lit ">", .star wsp, lit "/dev/sd"]

/-- `dd\s+if=.*of=/dev/` — direct disk write. -/
def patDd : RE := seqL [lit "dd", wsp.plus1, lit "if=", dotStar, lit "of=/dev/"]

/-- `chmod\s+-R\s+777\s+/` — recursive permission change from root. -/
def patChmod : RE :=
  seqL [lit "chmod", wsp.plus1, lit "-r", wsp.plus1, lit "777", wsp.plus1, lit "/"]

/-- `curl.*\|\s*sh` — pipe curl to shell. -/
def patCurl : RE := seqL [lit "curl", dotStar, lit "|", .star wsp, lit "sh"]

/-- `wget.*\|\s*bash` — pipe wget to bash. -/
def patWget : RE := seqL [lit "wget", dotStar, lit "|", .star wsp, lit "bash"]

/-- `:(){ :|:& };:` — fork bomb, as parsed by Python `re` (see above). -/
def patForkBomb : RE := .alt (seqL [lit ":", .eps, lit "\x7b :"]) (lit ":& \x7d;:")

/-- `mkfs\.` — filesystem format. -/
def patMkfs : RE := lit "mkfs."

/-- `rm\s+-rf\s+\*` — remove everything in current dir. -/
def patRmRfStar : RE := seqL [lit "rm", wsp.plus1, lit "-rf", wsp.plus1, lit "*"]

/-- `>\s*/etc/` — overwriting system files. -/
def patEtc : RE := seqL [lit ">", .star wsp, lit "/etc/"]

/-- `CommandVerifier.DANGEROUS_PATTERNS`, in source order. -/
def DANGEROUS_PATTERNS : List RE :=
  [patRmRfRoot, patRmRfHome, patDevSd, patDd, patChmod, patCurl, patWget,
   patForkBomb, patMkfs, patRmRfStar, patEtc]

/-- ASCII lowercasing of a string, as a character list (Python `str.lower`
on the ASCII subjects involved; `String.toLower` itself is opaque to kernel
reduction, so the list-level map is used throughout). -/
def lowerL (s : String) : List Char := s.data.map Char.toLower

/-- ASCII uppercasing (Python `str.upper` on the ASCII subjects involved). -/
def upperS (s : String) : String := ⟨s.data.map Char.toUpper⟩

/-- `CommandVerifier.is_dangerous`: some dangerous pattern matches somewhere
in the command (case-insensitively). -/
def is_dangerous (command : String) : Bool :=
  DANGEROUS_PATTERNS.any (fun p => reSearch p (lowerL command))

example : is_dangerous "rm -rf /" = true := by decide
example : is_dangerous "pytest -q" = false := by decide
example : is_dangerous "curl http://x.sh | sh" = true := by decide

/-! ## verifier.py: intent validators -/

/-- One row of `CommandVerifier.COMMAND_VALIDATORS` (with the defaults the
code reads back via `dict.get`). -/
structure IntentValidators where
  must_contain : List String := []
  must_not_contain : List String := []
  expected_duration : Nat × Nat := (0, 600000)
  modifies_files : Bool := false
  expected_output_patterns : List RE := []

/-- The `COMMAND_VALIDATORS` table, keyed by normalized command type. -/
def COMMAND_VALIDATORS (key : String) : Option IntentValidators :=
  if key = "test" then some
    { must_contain := ["test", "spec", "check", "pytest", "jest", "mocha", "jasmine"]
      must_not_contain := ["rm", "delete", "format", "install"]
      expected_duration := (100, 300000)
      modifies_files := false
      expected_output_patterns := [lit "test", lit "pass", lit "fail", lit "ok", lit "error"] }
  else if key = "lint" then some
    { must_contain := ["lint", "check", "ruff", "flake", "eslint", "pylint", "rubocop"]
      must_not_contain := ["rm", "delete", "install"]
      expected_duration := (100, 60000)
      modifies_files := false
      expected_output_patterns :=
        [lit "error", lit "warning", lit "found", lit "issue", lit "problem",
         lit "ok", lit "clean"] }
  else if key = "format" then some
    { must_contain := ["format", "black", "prettier", "fmt", "autopep", "standard"]
      must_not_contain := ["rm", "test", "install"]
      expected_duration := (100, 60000)
      modifies_files := true
      expected_output_patterns := [lit "reformat", lit "fixed", lit "changed", lit "modified"] }
  else if key = "coverage" then some
    { must_contain := ["cov", "coverage", "cover"]
      must_not_contain := ["rm", "delete", "install"]
      expected_duration := (500, 600000)
      modifies_files := false
      expected_output_patterns :=
        [seqL [dig.plus1, lit "%"], lit "coverage", lit "lines", lit "statements"] }
  else if key = "build" then some
    { must_contain := ["build", "compile", "bundle", "webpack", "rollup", "tsc"]
      must_not_contain := ["rm -rf", "sudo"]
      expected_duration := (500, 600000)
      modifies_files := true
      expected_output_patterns :=
        [lit "built", lit "compiled", lit "bundle", lit "success", lit "complete"] }
  else none

/-- The conservative fallback for unknown command types
(`verify_command`, step 2). -/
def conservativeValidators : IntentValidators :=
  { must_not_contain := ["rm", "delete", "sudo"]
    expected_duration := (10, 600000)
    modifies_files := false }

/-- Python `"_cmd" removal` part of `command_type.lower().replace("_cmd", "")`:
left-to-right removal of every occurrence of `_cmd` from a (lowercased)
character list. -/
def stripCmdL : List Char → List Char
  | [] => []
  | '_' :: 'c' :: 'm' :: 'd' :: rest => stripCmdL rest
  | c :: rest => c :: stripCmdL rest

/-- `command_type.lower().replace("_cmd", "")`. -/
def normalizeCmdType (command_type : String) : String :=
  ⟨stripCmdL (lowerL command_type)⟩

/-- Validators chosen for a command type by `verify_command` (table row, or
the conservative fallback). -/
def getValidators (command_type : String) : IntentValidators :=
  (COMMAND_VALIDATORS (normalizeCmdType command_type)).getD conservativeValidators

example : normalizeCmdType "TEST_CMD" = "test" := by decide
example : (getValidators "format").modifies_files = true := by rfl

/-! ## verifier.py: verification results -/

/-- The distinct `reason` strings a `VerificationResult` can carry, one
constructor per message produced by `verifier.py` (f-string arguments kept
as constructor arguments). -/
inductive Reason where
  | dangerous : Reason
  | wrongIntent : List String → Reason
  | forbidden : String → Reason
  | outputMismatch : Reason
  | modifiedFiles : Nat → Reason
  | tooFast : Reason
  | tooSlow : Reason
  | timedOut : Reason
  | execError : Reason
deriving DecidableEq

/-- `VerificationResult` (the dataclass of verifier.py, with reason strings
modelled by `Reason`). -/
structure VerificationResult where
  safe : Bool
  valid : Bool := false
  reason : Option Reason := none
  output_sample : Option String := none
  duration_ms : Option Nat := none
  files_modified : Nat := 0
deriving DecidableEq

/-- Python substring test `needle in hay` on a lowercased haystack. -/
def containsSub (needle : String) (hay : List Char) : Bool :=
  hay.tails.any (fun t => needle.data.isPrefixOf t)

/-- `CommandVerifier._validate_against_rules`: required keywords first, then
forbidden keywords in table order. -/
def validate_against_rules (command : String) (v : IntentValidators) :
    VerificationResult :=
  let command_lower := lowerL command
  if !v.must_contain.isEmpty &&
      !(v.must_contain.any fun k => containsSub k command_lower) then
    { safe := true, valid := false, reason := some (.wrongIntent v.must_contain) }
  else
    match v.must_not_contain.find? (fun k => containsSub k command_lower) with
    | some kw => { safe := true, valid := false, reason := some (.forbidden kw) }
    | none => { safe := true, valid := true }

/-- What the world did when the sandboxed subprocess ran: completed with
captured output, post-run snapshot and measured duration, or timed out
(`subprocess.TimeoutExpired`), or raised some other exception. -/
inductive SandboxRun where
  | completed : String → Finset String → Nat → SandboxRun
  | timedOut : SandboxRun
  | raised : SandboxRun

/-- `output[:500]`. -/
def sample500 (output : String) : String := ⟨output.data.take 500⟩

/-- `CommandVerifier._execute_sandboxed`, as a function of the pre-run
snapshot and of the observed subprocess behaviour.  Checks run in source
order: expected-output patterns (only when some are declared), then
unexpected file modification, then the duration window. -/
def execute_sandboxed (v : IntentValidators) (files_before : Finset String)
    (run : SandboxRun) : VerificationResult :=
  match run with
  | .timedOut => { safe := true, valid := false, reason := some .timedOut }
  | .raised => { safe := true, valid := false, reason := some .execError }
  | .completed output files_after duration_ms =>
    if !v.expected_output_patterns.isEmpty &&
        !(v.expected_output_patterns.any fun p => reSearch p (lowerL output)) then
      { safe := true, valid := false, reason := some .outputMismatch,
        output_sample := some (sample500 output), duration_ms := some duration_ms }
    else
      let files_modified := (files_before \ files_after ∪ files_after \ files_before).card
      if !v.modifies_files && files_modified > 0 then
        { safe := true, valid := false, reason := some (.modifiedFiles files_modified),
          files_modified := files_modified, duration_ms := some duration_ms }
      else if duration_ms < v.expected_duration.1 then
        { safe := true, valid := false, reason := some .tooFast,
          duration_ms := some duration_ms }
      else if duration_ms > v.expected_duration.2 then
        { safe := true, valid := false, reason := some .tooSlow,
          duration_ms := some duration_ms }
      else
        { safe := true, valid := true, output_sample := some (sample500 output),
          duration_ms := some duration_ms, files_modified := files_modified }

/-- `CommandVerifier.verify_command`.  The boolean in the pair records
whether the sandboxed executor was reached (a subprocess was started);
safety and static validation short-circuit before it. -/
def verify_command (command_type command : String) (files_before : Finset String)
    (run : SandboxRun) : VerificationResult × Bool :=
  if is_dangerous command then
    ({ safe := false, reason := some .dangerous }, false)
  else
    let validators := getValidators command_type
    let validation_result := validate_against_rules command validators
    if !validation_result.valid then (validation_result, false)
    else (execute_sandboxed validators files_before run, true)

/-! ## verifier.py: filesystem snapshots -/

/-- Python `p.startswith(".")` for one path component: its first character
is a dot.  (`String.startsWith` itself is byte-position based and opaque to
kernel reduction, hence this char-level transcription.) -/
def startsWithDot (p : String) : Bool :=
  match p.data with
  | [] => false
  | c :: _ => c = '.'

/-- A file visible to `Path.rglob`, by its path components relative to the
project root and its mtime.  (Entries whose `stat` raises are skipped by the
code; such entries are simply not listed.) -/
structure FSFile where
  parts : List String
  mtime : Nat

/-- `CommandVerifier._get_file_snapshot`: every regular file under the root
none of whose full-path components (root components included) starts with
a dot, rendered as `"path:mtime"`. -/
def get_file_snapshot (root_parts : List String) (files : List FSFile) :
    Finset String :=
  ((files.filter
      (fun f => !((root_parts ++ f.parts).any startsWithDot))).map
    (fun f => String.intercalate "/" (root_parts ++ f.parts) ++ ":" ++ toString f.mtime)).toFinset

/-! ## memory.py: the trust ledger -/

/-- A learned command with metadata (`CommandEntry` of memory.py, with the
keys `learn_command` / `update_command_result` / `mark_command_verified`
write; verification details beyond the method are not modelled). -/
structure CommandEntry where
  command : String
  learned_at : String
  learned_from : String
  verified : Bool
  last_success : Option String := none
  last_failure : Option String := none
  success_count : Nat
  failure_count : Nat
  confidence : ℚ
  needs_verification : Bool := false
  verification_method : Option String := none
  typical_duration_ms : Option Nat := none
deriving DecidableEq

/-- One rejected-command record. -/
structure Rejection where
  command : String
  suggested_by : String
  rejected_at : String
  reason : Option Reason
deriving DecidableEq

/-- The persisted ledger (`learned_data` of `RuleHawkMemory`); the
`commands` dict is an association list with unique keys in insertion
order, the `detected` / `environment` maps are not modelled. -/
structure LearnedData where
  version : String := "1.0"
  project_id : String
  created : String
  last_updated : String
  last_updated_by : String
  commands : List (String × CommandEntry)
  rejected_commands : List Rejection
deriving DecidableEq

/-- Dict lookup `learned_data["commands"].get(cmd_type)`. -/
def lookupCmd : List (String × CommandEntry) → String → Option CommandEntry
  | [], _ => none
  | (k, e) :: rest, t => if k = t then some e else lookupCmd rest t

/-- Dict assignment `learned_data["commands"][cmd_type] = entry`: replace in
place, or append when the key is new. -/
def insertCmd : List (String × CommandEntry) → String → CommandEntry →
    List (String × CommandEntry)
  | [], t, e => [(t, e)]
  | (k, e') :: rest, t, e =>
      if k = t then (t, e) :: rest else (k, e') :: insertCmd rest t e

/-- `RuleHawkMemory._create_empty_learned` (the fresh `uuid4` project id and
`datetime.now()` are world inputs). -/
def create_empty_learned (project_id now : String) : LearnedData :=
  { version := "1.0", project_id := project_id, created := now,
    last_updated := now, last_updated_by := "unknown",
    commands := [], rejected_commands := [] }

/-- What is on disk at the ledger path when `RuleHawkMemory` initializes. -/
inductive FileState where
  | absent : FileState
  | unreadable : FileState
  | malformed : FileState
  | wellFormed : LearnedData → FileState

/-- Outcome of loading the ledger: a value, or an uncaught exception
propagating out of `__init__`. -/
inductive LoadOutcome where
  | loaded : LearnedData → LoadOutcome
  | raised : LoadOutcome
deriving DecidableEq

/-- `RuleHawkMemory._load_learned`: a missing file and a
`json.JSONDecodeError` both yield a fresh empty ledger; a file that exists
but cannot be opened or read raises `OSError`, which the `except` clause
(`json.JSONDecodeError` only) does not catch. -/
def load_learned (fs : FileState) (project_id now : String) : LoadOutcome :=
  match fs with
  | .absent => .loaded (create_empty_learned project_id now)
  | .unreadable => .raised
  | .malformed => .loaded (create_empty_learned project_id now)
  | .wellFormed d => .loaded d

/-- `RuleHawkMemory.get_command`: the single trust gate — return the stored
command only when the entry exists, is verified, and has confidence at
least 0.7. -/
def get_command (d : LearnedData) (cmd_type : String) : Option String :=
  match lookupCmd d.commands cmd_type with
  | none => none
  | some e =>
      if e.verified && decide ((7 : ℚ)/10 ≤ e.confidence) then some e.command
      else none

/-- `RuleHawkMemory.learn_command`: create or overwrite the entry with a
fresh, unverified one (zero counters, confidence 0.0); `save_learned(source)`
stamps the update metadata. -/
def learn_command (d : LearnedData) (cmd_type command source now : String) :
    LearnedData :=
  { d with
    commands := insertCmd d.commands cmd_type
      { command := command, learned_at := now, learned_from := source,
        verified := false, success_count := 0, failure_count := 0,
        confidence := 0, needs_verification := true },
    last_updated := now, last_updated_by := source }

/-- `RuleHawkMemory._calculate_confidence`. -/
def calculate_confidence (success_count failure_count : Nat) : ℚ :=
  let total := success_count + failure_count
  if total = 0 then 0
  else
    let empirical : ℚ := (success_count : ℚ) / (total : ℚ)
    let empirical := if success_count < 3 then empirical * (1/2) else empirical
    min empirical (49/50)

/-- `RuleHawkMemory.update_command_result`: bump the matching counter,
stamp the matching timestamp (and `setdefault` the typical duration on a
success with a truthy duration), then recompute the confidence. -/
def update_command_result (d : LearnedData) (cmd_type : String) (success : Bool)
    (duration_ms : Option Nat) (now : String) : LearnedData :=
  match lookupCmd d.commands cmd_type with
  | none => d
  | some e =>
    let e :=
      if success then
        { e with
          success_count := e.success_count + 1, last_success := some now,
          typical_duration_ms :=
            match duration_ms with
            | some dm => if dm = 0 then e.typical_duration_ms
                         else some (e.typical_duration_ms.getD dm)
            | none => e.typical_duration_ms }
      else
        { e with failure_count := e.failure_count + 1, last_failure := some now }
    let e := { e with confidence := calculate_confidence e.success_count e.failure_count }
    { d with
      commands := insertCmd d.commands cmd_type e, last_updated := now,
      last_updated_by := "unknown" }

/-- `RuleHawkMemory.mark_command_verified`: set the verified flag, record
the method, and floor the confidence at 0.7 (never lowering it). -/
def mark_command_verified (d : LearnedData) (cmd_type method now : String) :
    LearnedData :=
  match lookupCmd d.commands cmd_type with
  | none => d
  | some e =>
    let e :=
      { e with
        verified := true, verification_method := some method,
        confidence := max e.confidence (7/10) }
    { d with
      commands := insertCmd d.commands cmd_type e, last_updated := now,
      last_updated_by := "unknown" }

/-- `RuleHawkMemory.reject_command`: append the rejection, then keep only
the last 50 entries (`lst[-50:]`). -/
def reject_command (d : LearnedData) (command suggested_by now : String)
    (reason : Option Reason) : LearnedData :=
  let buf := d.rejected_commands ++
    [{ command := command, suggested_by := suggested_by, rejected_at := now,
       reason := reason }]
  let buf := if buf.length > 50 then buf.drop (buf.length - 50) else buf
  { d with
    rejected_commands := buf, last_updated := now,
    last_updated_by := "unknown" }

/-- `RuleHawkMemory.get_all_commands`: every entry that is verified with
confidence strictly above 0.5 (a weaker bar than `get_command`'s 0.7). -/
def get_all_commands (d : LearnedData) : List (String × String) :=
  (d.commands.filter
    (fun p => p.2.verified && decide ((1 : ℚ)/2 < p.2.confidence))).map
    (fun p => (p.1, p.2.command))

/-! ## mcp/interactive_server.py: the learning protocol -/

/-- The `status` discriminators `teach_command` can answer with. -/
inductive TeachStatus where
  | rejected : TeachStatus
  | invalid : TeachStatus
  | learned : TeachStatus
deriving DecidableEq

/-- What one `teach_command` call did: its status and reason, the ledger it
left behind, and whether the sandboxed executor was reached. -/
structure TeachResult where
  status : TeachStatus
  reason : Option Reason
  memory : LearnedData
  executor_invoked : Bool
deriving DecidableEq

/-- The `teach_command` tool: verify (safety → static validation → sandbox),
record a rejection on any failure, and on success learn the command and
mark it verified (when `save` is set). -/
def teach_command (mem : LearnedData) (intent command : String) (save : Bool)
    (files_before : Finset String) (run : SandboxRun) (now : String) :
    TeachResult :=
  let cmd_type := upperS intent ++ "_CMD"
  let vr := verify_command intent command files_before run
  let verification := vr.1
  if !verification.safe then
    { status := .rejected, reason := verification.reason,
      memory := reject_command mem command "agent" now verification.reason,
      executor_invoked := vr.2 }
  else if !verification.valid then
    { status := .invalid, reason := verification.reason,
      memory := reject_command mem command "agent" now verification.reason,
      executor_invoked := vr.2 }
  else
    { status := .learned, reason := none,
      memory :=
        if save then
          mark_command_verified (learn_command mem cmd_type command "agent" now)
            cmd_type "agent_provided" now
        else mem,
      executor_invoked := vr.2 }

/-- The fixed list of intent types `learn_project` walks. -/
def CMD_TYPES : List String :=
  ["TEST_CMD", "LINT_CMD", "FORMAT_CMD", "COVERAGE_CMD", "BUILD_CMD"]

/-- Python `"_CMD" removal` (uppercase pattern) for
`cmd_type.replace("_CMD", "").lower()`. -/
def stripCMDL : List Char → List Char
  | [] => []
  | '_' :: 'C' :: 'M' :: 'D' :: rest => stripCMDL rest
  | c :: rest => c :: stripCMDL rest

/-- The `needed` list computed by `learn_project`: each of the five intent
types whose key is absent from `get_all_commands`, renamed
`cmd_type.replace("_CMD", "").lower()`. -/
def learn_project_needed (mem : LearnedData) : List String :=
  (CMD_TYPES.filter
    (fun t => !((get_all_commands mem).any (fun p => p.1 = t)))).map
    (fun t => ⟨(stripCMDL t.data).map Char.toLower⟩)

/-- How a `run_command` call is dispatched: the trusted command to execute,
or the `unknown_command` answer when the trust gate returns nothing. -/
inductive RunDispatch where
  | unknown_command : RunDispatch
  | execute : String → RunDispatch
deriving DecidableEq

/-- The dispatch step of the `run_command` tool (the subprocess it then
starts is a world effect). -/
def run_command (mem : LearnedData) (intent : String) : RunDispatch :=
  match get_command mem (upperS intent ++ "_CMD") with
  | none => .unknown_command
  | some c => .execute c

/-! ## Helper lemmas about the association-list dict operations -/

theorem lookupCmd_insertCmd_self (l : List (String × CommandEntry)) (t : String)
    (e : CommandEntry) : lookupCmd (insertCmd l t e) t = some e := by
  induction l with
  | nil => simp [insertCmd, lookupCmd]
  | cons p rest ih =>
    obtain ⟨k, e'⟩ := p
    by_cases h : k = t <;> simp [insertCmd, lookupCmd, h, ih]

theorem insertCmd_insertCmd_self (l : List (String × CommandEntry)) (t : String)
    (e : CommandEntry) : insertCmd (insertCmd l t e) t e = insertCmd l t e := by
  induction l with
  | nil => simp [insertCmd]
  | cons p rest ih =>
    obtain ⟨k, e'⟩ := p
    by_cases h : k = t <;> simp [insertCmd, h, ih]

theorem lookupCmd_mem {l : List (String × CommandEntry)} {t : String}
    {e : CommandEntry} (h : lookupCmd l t = some e) : (t, e) ∈ l := by
  induction l with
  | nil => simp [lookupCmd] at h
  | cons p rest ih =>
    obtain ⟨k, e'⟩ := p
    simp only [lookupCmd] at h
    split at h
    · next hk =>
        subst hk
        obtain rfl : e' = e := by injection h
        exact List.mem_cons_self _ _
    · exact List.mem_cons_of_mem _ (ih h)

/-- The rejection just appended survives the truncation to the last 50. -/
theorem self_mem_reject_command (d : LearnedData) (c sb now : String)
    (r : Option Reason) :
    ({ command := c, suggested_by := sb, rejected_at := now,
       reason := r } : Rejection) ∈ (reject_command d c sb now r).rejected_commands := by
  unfold reject_command
  set x : Rejection :=
    { command := c, suggested_by := sb, rejected_at := now, reason := r } with hx
  by_cases h : (d.rejected_commands ++ [x]).length > 50
  · simp only [h, if_pos]
    rw [List.drop_append_eq_append_drop]
    have hlen : (d.rejected_commands ++ [x]).length - 50 - d.rejected_commands.length = 0 := by
      simp only [List.length_append, List.length_singleton]
      omega
    rw [hlen]
    exact List.mem_append_right _ (List.mem_cons_self _ _)
  · simp only [h, if_neg, ite_false]
    exact List.mem_append_right _ (List.mem_cons_self _ _)

/-- `_calculate_confidence`, rewritten the way the spec states the formula
(the 0.5 penalty as a multiplier applied exactly when `s < 3`). -/
theorem calculate_confidence_eq (s f : Nat) :
    calculate_confidence s f =
      if s + f = 0 then 0
      else min ((s : ℚ) / ((s + f : ℕ) : ℚ) * (if s < 3 then 1/2 else 1)) (49/50) := by
  unfold calculate_confidence
  by_cases h : s + f = 0
  · simp [h]
  · simp only [h, if_neg, ite_false]
    by_cases h3 : s < 3 <;> simp [h3]

/-! ## Concrete fixtures used by the witnesses -/

/-- A fully trusted entry (three successes, verified, confidence 0.98). -/
def entryTrusted : CommandEntry :=
  { command := "pytest", learned_at := "t0", learned_from := "agent",
    verified := true, success_count := 3, failure_count := 0,
    confidence := 49/50 }

/-- An entry sitting strictly between the two thresholds (verified,
confidence 0.6). -/
def entryMid : CommandEntry :=
  { command := "npm run lint", learned_at := "t0", learned_from := "agent",
    verified := true, success_count := 0, failure_count := 0,
    confidence := 3/5 }

/-- An entry with two recorded successes and no failures. -/
def entryTwoWins : CommandEntry :=
  { command := "pytest", learned_at := "t0", learned_from := "agent",
    verified := false, success_count := 2, failure_count := 0,
    confidence := 1/2 }

/-- A ledger holding `entryTrusted` under `TEST_CMD`. -/
def ledgerTrusted : LearnedData :=
  { project_id := "p0", created := "t0", last_updated := "t0",
    last_updated_by := "unknown", commands := [("TEST_CMD", entryTrusted)],
    rejected_commands := [] }

/-- A ledger holding `entryMid` under `LINT_CMD`. -/
def ledgerMid : LearnedData :=
  { project_id := "p0", created := "t0", last_updated := "t0",
    last_updated_by := "unknown", commands := [("LINT_CMD", entryMid)],
    rejected_commands := [] }

/-- A ledger holding `entryTwoWins` under `TEST_CMD`. -/
def ledgerTwoWins : LearnedData :=
  { project_id := "p0", created := "t0", last_updated := "t0",
    last_updated_by := "unknown", commands := [("TEST_CMD", entryTwoWins)],
    rejected_commands := [] }

/-! ## The claims -/

/-- C1: for every intent type, `get_command` returns the stored command
string exactly when the entry exists with `verified = true` and
`confidence ≥ 0.7`; in every other case (no entry, unverified, or
confidence below 0.7) it returns `none`, regardless of the command
string. -/
theorem get_command_trust_gate (d : LearnedData) (t : String) :
    (∀ c, get_command d t = some c ↔
        ∃ e, lookupCmd d.commands t = some e ∧ e.verified = true ∧
          (7 : ℚ)/10 ≤ e.confidence ∧ c = e.command) ∧
    (get_command d t = none ↔
        ∀ e, lookupCmd d.commands t = some e →
          ¬(e.verified = true ∧ (7 : ℚ)/10 ≤ e.confidence)) := by
  unfold get_command
  cases h : lookupCmd d.commands t with
  | none => simp
  | some e =>
    simp only [Bool.and_eq_true, decide_eq_true_eq]
    by_cases hcond : e.verified = true ∧ (7 : ℚ)/10 ≤ e.confidence
    · rw [if_pos hcond]
      constructor
      · intro c
        constructor
        · intro hc
          exact ⟨e, rfl, hcond.1, hcond.2, (Option.some.inj hc).symm⟩
        · rintro ⟨e', he', -, -, rfl⟩
          obtain rfl : e = e' := Option.some.inj he'
          rfl
      · constructor
        · intro hnone; cases hnone
        · intro hall
          exact absurd hcond (hall e rfl)
    · rw [if_neg hcond]
      constructor
      · intro c
        constructor
        · intro hc; cases hc
        · rintro ⟨e', he', hv, hc, rfl⟩
          obtain rfl : e = e' := Option.some.inj he'
          exact absurd ⟨hv, hc⟩ hcond
      · constructor
        · intro _ e' he'
          obtain rfl : e = e' := Option.some.inj he'
          exact fun hx => hcond hx
        · intro _; rfl

/-- C1 witness: a verified entry at confidence 0.98 is returned; a verified
entry at confidence 0.6 is not. -/
theorem get_command_trust_gate_witness :
    get_command ledgerTrusted "TEST_CMD" = some "pytest" ∧
    get_command ledgerMid "LINT_CMD" = none := by
  constructor
  · exact ((get_command_trust_gate ledgerTrusted "TEST_CMD").1 "pytest").mpr
      ⟨entryTrusted, rfl, rfl, by norm_num [entryTrusted], rfl⟩
  · refine (get_command_trust_gate ledgerMid "LINT_CMD").2.mpr ?_
    intro e he
    obtain rfl : entryMid = e := Option.some.inj he
    rintro ⟨-, hc⟩
    norm_num [entryMid] at hc

/-- C5: for every intent type with an existing entry, `mark_command_verified`
sets `verified = true` and sets the confidence to `max old 0.7`: never lower
than before, at least 0.7, and still at most 0.98 whenever the prior
confidence was at most 0.98. -/
theorem mark_verified_confidence_floor (d : LearnedData) (t method now : String)
    (e : CommandEntry) (h : lookupCmd d.commands t = some e) :
    ∃ e', lookupCmd (mark_command_verified d t method now).commands t = some e' ∧
      e'.verified = true ∧
      e'.confidence = max e.confidence (7/10) ∧
      e.confidence ≤ e'.confidence ∧
      (7 : ℚ)/10 ≤ e'.confidence ∧
      (e.confidence ≤ 49/50 → e'.confidence ≤ 49/50) := by
  unfold mark_command_verified
  rw [h]
  refine ⟨_, lookupCmd_insertCmd_self _ _ _, rfl, rfl, le_max_left _ _,
    le_max_right _ _, fun hle => ?_⟩
  exact max_le hle (by norm_num)

/-- C5 witness: marking the 0.6-confidence entry lifts it to exactly 0.7. -/
theorem mark_verified_confidence_floor_witness :
    ∃ e', lookupCmd (mark_command_verified ledgerMid "LINT_CMD" "exit_code" "t1").commands
        "LINT_CMD" = some e' ∧
      e'.verified = true ∧
      e'.confidence = max entryMid.confidence (7/10) ∧
      entryMid.confidence ≤ e'.confidence ∧
      (7 : ℚ)/10 ≤ e'.confidence ∧
      (entryMid.confidence ≤ 49/50 → e'.confidence ≤ 49/50) :=
  mark_verified_confidence_floor ledgerMid "LINT_CMD" "exit_code" "t1" entryMid rfl

/-- C6: after every call to `reject_command` the rejected-commands buffer
holds at most 50 entries, and the retained entries are exactly the most
recently appended ones (the suffix of the appended list of length
`min (old + 1) 50` — FIFO eviction from the front). -/
theorem reject_command_bounded_fifo (d : LearnedData) (c sb now : String)
    (r : Option Reason) :
    (reject_command d c sb now r).rejected_commands.length ≤ 50 ∧
    (reject_command d c sb now r).rejected_commands =
      (d.rejected_commands ++
          [({ command := c, suggested_by := sb, rejected_at := now,
              reason := r } : Rejection)]).drop
        (d.rejected_commands.length + 1 - 50) := by
  unfold reject_command
  set x : Rejection :=
    { command := c, suggested_by := sb, rejected_at := now, reason := r } with hx
  have hlen : (d.rejected_commands ++ [x]).length = d.rejected_commands.length + 1 := by
    simp
  by_cases h : (d.rejected_commands ++ [x]).length > 50
  · simp only [h, if_pos]
    constructor
    · rw [List.length_drop, hlen]; omega
    · rw [hlen]
  · simp only [h, if_neg, ite_false]
    constructor
    · rw [hlen] at h ⊢; omega
    · have h0 : d.rejected_commands.length + 1 - 50 = 0 := by
        rw [hlen] at h; omega
      rw [h0, List.drop_zero]

/-- C7: `learn_command` always leaves a freshly-reset entry (unverified,
zero counters, confidence 0), even over a verified entry with nonzero
counters, and calling it twice with the same arguments leaves exactly the
state one call leaves. -/
theorem learn_command_resets_and_idempotent (d : LearnedData) (t c src now : String) :
    (∃ e, lookupCmd (learn_command d t c src now).commands t = some e ∧
        e.verified = false ∧ e.success_count = 0 ∧ e.failure_count = 0 ∧
        e.confidence = 0) ∧
    learn_command (learn_command d t c src now) t c src now =
      learn_command d t c src now := by
  constructor
  · exact ⟨_, lookupCmd_insertCmd_self _ _ _, rfl, rfl, rfl, rfl⟩
  · simp [learn_command, insertCmd_insertCmd_self]

/-- C2: for every command matching a destructive pattern, `teach_command`
answers status `rejected` with the dangerous-pattern reason, records the
command in the rejection buffer, and the sandboxed executor is never
reached — the safety check runs first and short-circuits the pipeline. -/
theorem teach_command_dangerous_short_circuits (mem : LearnedData)
    (intent command : String) (save : Bool) (fb : Finset String)
    (run : SandboxRun) (now : String) (h : is_dangerous command = true) :
    (teach_command mem intent command save fb run now).status = .rejected ∧
    (teach_command mem intent command save fb run now).reason = some .dangerous ∧
    (teach_command mem intent command save fb run now).executor_invoked = false ∧
    (teach_command mem intent command save fb run now).memory =
      reject_command mem command "agent" now (some .dangerous) ∧
    ({ command := command, suggested_by := "agent", rejected_at := now,
       reason := some .dangerous } : Rejection) ∈
      (teach_command mem intent command save fb run now).memory.rejected_commands := by
  have hteach : teach_command mem intent command save fb run now =
      { status := .rejected, reason := some .dangerous,
        memory := reject_command mem command "agent" now (some .dangerous),
        executor_invoked := false } := by
    unfold teach_command verify_command
    simp [h]
  rw [hteach]
  exact ⟨rfl, rfl, rfl, rfl, self_mem_reject_command _ _ _ _ _⟩

/-- C2 witness: teaching `rm -rf /` as a test command, under any sandbox
behaviour, is rejected without the executor ever running. -/
theorem teach_command_dangerous_short_circuits_witness :
    is_dangerous "rm -rf /" = true ∧
    (teach_command ledgerTrusted "test" "rm -rf /" true ∅ SandboxRun.timedOut "t1").status
      = .rejected ∧
    (teach_command ledgerTrusted "test" "rm -rf /" true ∅ SandboxRun.timedOut "t1").executor_invoked
      = false := by
  have h : is_dangerous "rm -rf /" = true := by decide
  obtain ⟨h1, -, h3, -, -⟩ :=
    teach_command_dangerous_short_circuits ledgerTrusted "test" "rm -rf /" true ∅
      SandboxRun.timedOut "t1" h
  exact ⟨h, h1, h3⟩

/-- C3: the confidence recomputed by `update_command_result` on an existing
entry equals 0 when both counters are 0, and otherwise
`min (s/(s+f) · (1/2 if s < 3 else 1)) 0.98` on the updated counters; with
three successes and no failures the 0.5 penalty no longer applies and the
confidence is exactly 0.98. -/
theorem update_result_confidence_formula (d : LearnedData) (t : String)
    (success : Bool) (dm : Option Nat) (now : String) (e : CommandEntry)
    (h : lookupCmd d.commands t = some e) :
    ∃ e', lookupCmd (update_command_result d t success dm now).commands t = some e' ∧
      e'.success_count = (if success then e.success_count + 1 else e.success_count) ∧
      e'.failure_count = (if success then e.failure_count else e.failure_count + 1) ∧
      e'.confidence =
        (if e'.success_count + e'.failure_count = 0 then 0
         else min ((e'.success_count : ℚ) /
             ((e'.success_count + e'.failure_count : ℕ) : ℚ) *
             (if e'.success_count < 3 then 1/2 else 1)) (49/50)) ∧
      (success = true → e.success_count = 2 → e.failure_count = 0 →
        e'.confidence = 49/50) := by
  unfold update_command_result
  rw [h]
  cases success with
  | true =>
    refine ⟨_, lookupCmd_insertCmd_self _ _ _, rfl, rfl,
      calculate_confidence_eq (e.success_count + 1) e.failure_count, fun _ hs hf => ?_⟩
    show calculate_confidence (e.success_count + 1) e.failure_count = 49/50
    rw [hs, hf, calculate_confidence_eq]
    norm_num
  | false =>
    refine ⟨_, lookupCmd_insertCmd_self _ _ _, rfl, rfl,
      calculate_confidence_eq e.success_count (e.failure_count + 1),
      fun hfalse _ _ => by cases hfalse⟩

/-- C3 witness: a third success on a 2-success, 0-failure entry yields
confidence exactly 0.98. -/
theorem update_result_confidence_formula_witness :
    ∃ e', lookupCmd (update_command_result ledgerTwoWins "TEST_CMD" true none "t1").commands
        "TEST_CMD" = some e' ∧ e'.confidence = 49/50 := by
  obtain ⟨e', h1, -, -, -, h5⟩ :=
    update_result_confidence_formula ledgerTwoWins "TEST_CMD" true none "t1"
      entryTwoWins rfl
  exact ⟨e', h1, h5 rfl rfl rfl⟩

/-- C8 counterexample: a ledger file that exists but cannot be read makes
initialization raise (`open` raises `OSError`, which the
`except json.JSONDecodeError` clause does not catch) instead of yielding a
fresh empty ledger. -/
theorem load_learned_unreadable_raises :
    load_learned FileState.unreadable "p0" "t0" = LoadOutcome.raised ∧
    ∀ d, load_learned FileState.unreadable "p0" "t0" ≠ LoadOutcome.loaded d := by
  exact ⟨rfl, fun d h => by cases h⟩

/-- C8 (amended): loading yields a fresh empty ledger (new project id, empty
commands map, empty rejection buffer) when the file is absent or holds a
malformed document; an unreadable file is not handled. -/
theorem load_learned_fresh_on_absent_or_malformed (pid now : String) :
    load_learned FileState.absent pid now = .loaded (create_empty_learned pid now) ∧
    load_learned FileState.malformed pid now = .loaded (create_empty_learned pid now) ∧
    (create_empty_learned pid now).project_id = pid ∧
    (create_empty_learned pid now).commands = [] ∧
    (create_empty_learned pid now).rejected_commands = [] :=
  ⟨rfl, rfl, rfl, rfl, rfl⟩

/-- A known intent type is never reported as needing teaching by
`learn_project` (the five intent names have pairwise distinct renamings, so
only the matching table row could contribute the name). -/
theorem needed_excludes_known (d : LearnedData) (t : String) (ht : t ∈ CMD_TYPES)
    (hk : (get_all_commands d).any (fun p => p.1 = t) = true) :
    (⟨(stripCMDL t.data).map Char.toLower⟩ : String) ∉ learn_project_needed d := by
  intro hmem
  unfold learn_project_needed at hmem
  rw [List.mem_map] at hmem
  obtain ⟨t', ht', heq⟩ := hmem
  rw [List.mem_filter] at ht'
  obtain ⟨htmem, htcond⟩ := ht'
  have hne : t' ≠ t := by
    rintro rfl
    rw [hk] at htcond
    simp at htcond
  simp only [CMD_TYPES, List.mem_cons, List.not_mem_nil, or_false] at ht htmem
  rcases ht with rfl | rfl | rfl | rfl | rfl <;>
    rcases htmem with rfl | rfl | rfl | rfl | rfl <;>
      first
        | exact hne rfl
        | exact absurd heq (by decide)

/-- C9 (implicit): `get_all_commands` uses the strictly weaker bar
`verified ∧ confidence > 0.5`, so an entry with confidence strictly between
0.5 and 0.7 is listed as known (and `learn_project` does not ask for it)
while `get_command` returns `none` and `run_command` answers
`unknown_command` for the very same entry. -/
theorem known_but_not_trusted_gap (d : LearnedData) (intent : String)
    (e : CommandEntry)
    (h : lookupCmd d.commands (upperS intent ++ "_CMD") = some e)
    (hv : e.verified = true) (h1 : (1 : ℚ)/2 < e.confidence)
    (h2 : e.confidence < 7/10) :
    (upperS intent ++ "_CMD", e.command) ∈ get_all_commands d ∧
    get_command d (upperS intent ++ "_CMD") = none ∧
    run_command d intent = .unknown_command ∧
    (upperS intent ++ "_CMD" ∈ CMD_TYPES →
      (⟨(stripCMDL (upperS intent ++ "_CMD").data).map Char.toLower⟩ : String) ∉
        learn_project_needed d) := by
  have hmem : (upperS intent ++ "_CMD", e.command) ∈ get_all_commands d := by
    unfold get_all_commands
    apply List.mem_map.mpr
    refine ⟨(upperS intent ++ "_CMD", e), List.mem_filter.mpr ⟨lookupCmd_mem h, ?_⟩, rfl⟩
    simp only [hv, Bool.true_and, decide_eq_true_eq]
    linarith
  have hnone : get_command d (upperS intent ++ "_CMD") = none := by
    unfold get_command
    rw [h]
    simp [not_le.mpr h2]
  refine ⟨hmem, hnone, ?_, ?_⟩
  · unfold run_command
    rw [hnone]
  · intro htc
    refine needed_excludes_known d (upperS intent ++ "_CMD") htc ?_
    exact List.any_eq_true.mpr ⟨(upperS intent ++ "_CMD", e.command), hmem, by simp⟩

/-- C9 witness: the verified 0.6-confidence lint entry is listed as known
and skipped by `learn_project`, yet `get_command` and `run_command` treat it
as absent. -/
theorem known_but_not_trusted_gap_witness :
    ("LINT_CMD", "npm run lint") ∈ get_all_commands ledgerMid ∧
    get_command ledgerMid "LINT_CMD" = none ∧
    run_command ledgerMid "lint" = .unknown_command ∧
    ("lint" : String) ∉ learn_project_needed ledgerMid := by
  obtain ⟨h1, h2, h3, h4⟩ := known_but_not_trusted_gap ledgerMid "lint" entryMid
    rfl rfl (by norm_num [entryMid]) (by norm_num [entryMid])
  exact ⟨h1, h2, h3, h4 (by decide)⟩

/-- C10 (implicit): the snapshot dot-filter tests every component of the
full path, those of the project root included; under a root lying anywhere
below a hidden directory both snapshots are therefore empty, so
`files_modified` is always 0 and the modified-files rejection branch of the
sandboxed verification is unreachable. -/
theorem hidden_root_disables_file_check (root : List String)
    (h : root.any startsWithDot = true) :
    (∀ files, get_file_snapshot root files = ∅) ∧
    (∀ v out dur files1 files2,
      (execute_sandboxed v (get_file_snapshot root files1)
          (.completed out (get_file_snapshot root files2) dur)).files_modified = 0 ∧
      (∀ n, (execute_sandboxed v (get_file_snapshot root files1)
          (.completed out (get_file_snapshot root files2) dur)).reason ≠
        some (.modifiedFiles n))) := by
  have hempty : ∀ files, get_file_snapshot root files = ∅ := by
    intro files
    unfold get_file_snapshot
    have hfil : (files.filter
        (fun f => !((root ++ f.parts).any startsWithDot))) = [] := by
      apply List.filter_eq_nil_iff.mpr
      intro f _
      simp [List.any_append, h]
    rw [hfil]
    simp
  refine ⟨hempty, ?_⟩
  intro v out dur files1 files2
  rw [hempty files1, hempty files2]
  have hfm : ((∅ : Finset String) \ ∅ ∪ ∅ \ ∅).card = 0 := by simp
  constructor
  · simp only [execute_sandboxed]
    split_ifs with h1 h2 h3 h4 <;> simp_all
  · intro n
    simp only [execute_sandboxed]
    split_ifs with h1 h2 h3 h4 <;> simp_all

/-- C10 witness: under the hidden root `.hidden/proj` the snapshot of a
visible-looking file is empty and a completed run reports zero modified
files. -/
theorem hidden_root_disables_file_check_witness :
    get_file_snapshot [".hidden", "proj"] [⟨["a.txt"], 1⟩] = ∅ ∧
    (execute_sandboxed (getValidators "test")
        (get_file_snapshot [".hidden", "proj"] [⟨["a.txt"], 1⟩])
        (.completed "test ok" (get_file_snapshot [".hidden", "proj"] []) 5)).files_modified
      = 0 := by
  obtain ⟨h1, h2⟩ := hidden_root_disables_file_check [".hidden", "proj"] (by decide)
  exact ⟨h1 _, (h2 (getValidators "test") "test ok" 5 [⟨["a.txt"], 1⟩] []).1⟩

/-- C4: sandboxed verification checks conditions in a fixed order and
returns the first violated one: declared expected-output patterns first,
then unexpected file modification (flagged only when the intent declares it
should not mutate files — a mutating intent is never flagged, and a
mutating run under a mutating intent passes), then the duration window
`[min, max]` (inclusive at both ends). -/
theorem execute_sandboxed_check_order (v : IntentValidators) (fb fa : Finset String)
    (out : String) (dur : Nat) :
    (¬(v.expected_output_patterns = [] ∨
        (v.expected_output_patterns.any fun p => reSearch p (lowerL out)) = true) →
      execute_sandboxed v fb (.completed out fa dur) =
        { safe := true, valid := false, reason := some .outputMismatch,
          output_sample := some (sample500 out), duration_ms := some dur }) ∧
    (v.modifies_files = true → ∀ n,
      (execute_sandboxed v fb (.completed out fa dur)).reason ≠
        some (.modifiedFiles n)) ∧
    ((v.expected_output_patterns = [] ∨
        (v.expected_output_patterns.any fun p => reSearch p (lowerL out)) = true) →
      v.modifies_files = false → 0 < (fb \ fa ∪ fa \ fb).card →
      execute_sandboxed v fb (.completed out fa dur) =
        { safe := true, valid := false,
          reason := some (.modifiedFiles ((fb \ fa ∪ fa \ fb).card)),
          files_modified := (fb \ fa ∪ fa \ fb).card, duration_ms := some dur }) ∧
    ((v.expected_output_patterns = [] ∨
        (v.expected_output_patterns.any fun p => reSearch p (lowerL out)) = true) →
      (v.modifies_files = true ∨ (fb \ fa ∪ fa \ fb).card = 0) →
      dur < v.expected_duration.1 →
      execute_sandboxed v fb (.completed out fa dur) =
        { safe := true, valid := false, reason := some .tooFast,
          duration_ms := some dur }) ∧
    ((v.expected_output_patterns = [] ∨
        (v.expected_output_patterns.any fun p => reSearch p (lowerL out)) = true) →
      (v.modifies_files = true ∨ (fb \ fa ∪ fa \ fb).card = 0) →
      v.expected_duration.1 ≤ dur → v.expected_duration.2 < dur →
      execute_sandboxed v fb (.completed out fa dur) =
        { safe := true, valid := false, reason := some .tooSlow,
          duration_ms := some dur }) ∧
    ((v.expected_output_patterns = [] ∨
        (v.expected_output_patterns.any fun p => reSearch p (lowerL out)) = true) →
      (v.modifies_files = true ∨ (fb \ fa ∪ fa \ fb).card = 0) →
      v.expected_duration.1 ≤ dur → dur ≤ v.expected_duration.2 →
      execute_sandboxed v fb (.completed out fa dur) =
        { safe := true, valid := true, output_sample := some (sample500 out),
          duration_ms := some dur,
          files_modified := (fb \ fa ∪ fa \ fb).card }) ∧
    (getValidators "format").modifies_files = true := by
  refine ⟨?_, ?_, ?_, ?_, ?_, ?_, rfl⟩
  · intro hno
    rw [not_or] at hno
    obtain ⟨hA, hB⟩ := hno
    have hB' : (v.expected_output_patterns.any fun p => reSearch p (lowerL out)) = false := by
      simpa using hB
    have hc1 : (!v.expected_output_patterns.isEmpty &&
        !(v.expected_output_patterns.any fun p => reSearch p (lowerL out))) = true := by
      simp [hB', List.isEmpty_iff, hA]
    simp only [execute_sandboxed]
    rw [if_pos hc1]
  · intro hmod n
    simp only [execute_sandboxed]
    split_ifs with h1 h2 h3 h4 <;> simp_all
  · intro hout hmod hfm
    have hc1 : (!v.expected_output_patterns.isEmpty &&
        !(v.expected_output_patterns.any fun p => reSearch p (lowerL out))) = false := by
      rcases hout with h | h <;> simp [h]
    have hc2 : (!v.modifies_files && decide ((fb \ fa ∪ fa \ fb).card > 0)) = true := by
      simp [hmod, hfm]
    have hnc1 : ¬((!v.expected_output_patterns.isEmpty &&
        !(v.expected_output_patterns.any fun p => reSearch p (lowerL out))) = true) := by
      rw [hc1]; exact Bool.false_ne_true
    simp only [execute_sandboxed]
    rw [if_neg hnc1]
    rw [if_pos hc2]
  · intro hout hmod hdur
    have hc1 : (!v.expected_output_patterns.isEmpty &&
        !(v.expected_output_patterns.any fun p => reSearch p (lowerL out))) = false := by
      rcases hout with h | h <;> simp [h]
    have hc2 : (!v.modifies_files && decide ((fb \ fa ∪ fa \ fb).card > 0)) = false := by
      rcases hmod with h | h <;> simp [h]
    have hnc1 : ¬((!v.expected_output_patterns.isEmpty &&
        !(v.expected_output_patterns.any fun p => reSearch p (lowerL out))) = true) := by
      rw [hc1]; exact Bool.false_ne_true
    have hnc2 : ¬((!v.modifies_files && decide ((fb \ fa ∪ fa \ fb).card > 0)) = true) := by
      rw [hc2]; exact Bool.false_ne_true
    simp only [execute_sandboxed]
    rw [if_neg hnc1]
    rw [if_neg hnc2, if_pos hdur]
  · intro hout hmod hmin hmax
    have hc1 : (!v.expected_output_patterns.isEmpty &&
        !(v.expected_output_patterns.any fun p => reSearch p (lowerL out))) = false := by
      rcases hout with h | h <;> simp [h]
    have hc2 : (!v.modifies_files && decide ((fb \ fa ∪ fa \ fb).card > 0)) = false := by
      rcases hmod with h | h <;> simp [h]
    have hnc1 : ¬((!v.expected_output_patterns.isEmpty &&
        !(v.expected_output_patterns.any fun p => reSearch p (lowerL out))) = true) := by
      rw [hc1]; exact Bool.false_ne_true
    have hnc2 : ¬((!v.modifies_files && decide ((fb \ fa ∪ fa \ fb).card > 0)) = true) := by
      rw [hc2]; exact Bool.false_ne_true
    simp only [execute_sandboxed]
    rw [if_neg hnc1]
    rw [if_neg hnc2, if_neg (not_lt.mpr hmin), if_pos hmax]
  · intro hout hmod hmin hmax
    have hc1 : (!v.expected_output_patterns.isEmpty &&
        !(v.expected_output_patterns.any fun p => reSearch p (lowerL out))) = false := by
      rcases hout with h | h <;> simp [h]
    have hc2 : (!v.modifies_files && decide ((fb \ fa ∪ fa \ fb).card > 0)) = false := by
      rcases hmod with h | h <;> simp [h]
    have hnc1 : ¬((!v.expected_output_patterns.isEmpty &&
        !(v.expected_output_patterns.any fun p => reSearch p (lowerL out))) = true) := by
      rw [hc1]; exact Bool.false_ne_true
    have hnc2 : ¬((!v.modifies_files && decide ((fb \ fa ∪ fa \ fb).card > 0)) = true) := by
      rw [hc2]; exact Bool.false_ne_true
    simp only [execute_sandboxed]
    rw [if_neg hnc1]
    rw [if_neg hnc2, if_neg (not_lt.mpr hmin), if_neg (not_lt.mpr hmax)]

/-- C4 witness: teaching a `format` intent whose sandboxed run reports zero
modified files passes the file-modification check and validates. -/
theorem execute_sandboxed_check_order_witness :
    execute_sandboxed (getValidators "format") ∅ (.completed "reformat" ∅ 500) =
      { safe := true, valid := true, output_sample := some (sample500 "reformat"),
        duration_ms := some 500, files_modified := 0 } ∧
    (getValidators "format").modifies_files = true := by
  obtain ⟨-, -, -, -, -, h6, h7⟩ :=
    execute_sandboxed_check_order (getValidators "format") ∅ ∅ "reformat" 500
  refine ⟨?_, h7⟩
  have h := h6 (Or.inr (by decide)) (Or.inl h7) (by decide) (by decide)
  simpa using h

end RuleHawk
